import Mathlib

/-!
Verification of the rule-driven entry-archiving engine of the
miniflux-archiver tool (`miniflux-archiver/main.py`).

The decision engine (`Archiver.should_archive`), the per-entry rule loop,
and the paginating batch archiver (`Archiver.run`) are shallowly embedded:

* timestamps are absolute times in seconds (`Int`); an entry whose
  `published_at` string `dateutil` cannot parse is modelled with
  `published_at = none`, and the corresponding `parse_date` exception
  becomes `Except.error`;
* Python early `return False` / `return True` and raised exceptions are
  modelled with `Except String Bool`;
* the Miniflux client is replaced by an immutable `Snapshot` (the reported
  unread total plus the page contents per offset), and every API call the
  code issues is recorded in a `Call` trace so that dry-run and mutation
  behaviour can be compared.
-/

deriving instance DecidableEq for Except

namespace MinifluxArchiver

/-- Python's `str.lower` (ASCII case folding as used by the rule filters). -/
def pyLower (s : String) : String := String.mk (s.data.map Char.toLower)

/-- `isPrefixCL pat l` : `pat` is a prefix of `l` (character lists). -/
def isPrefixCL : List Char → List Char → Bool
  | [], _ => true
  | _ :: _, [] => false
  | a :: as, b :: bs => a == b && isPrefixCL as bs

/-- `containsCL pat l` : `pat` occurs contiguously inside `l`. -/
def containsCL (pat : List Char) : List Char → Bool
  | [] => pat.isEmpty
  | b :: bs => isPrefixCL pat (b :: bs) || containsCL pat bs

/-- Python's substring test `pat in hay` for strings. -/
def strIn (pat hay : String) : Bool := containsCL pat.data hay.data

/-- An unread entry as seen by the archiver.  `published_at` is the parsed
absolute timestamp in seconds (`none` = the string is unparseable, so
`parse_date` raises); `reading_time` is `none` when the key is absent
(`entry.get('reading_time', 0)` then yields `0`); `feed_category` models
`entry.get('feed', {}).get('category', '')` (`none` = absent, read as `""`). -/
structure Entry where
  id : Int
  title : String
  published_at : Option Int
  reading_time : Option Int
  feed_id : Option Int
  feed_category : Option String
  feed_title : String
deriving Repr, DecidableEq

/-- An archiving rule (`ArchiveRule` dataclass). List-valued fields keep the
`Option` layer so that Python's `None` and `[]` stay distinguishable; both are
falsy under `truthy`. -/
structure ArchiveRule where
  age_days : Option Int := none
  reading_time_min : Option Int := none
  categories : Option (List String) := none
  feeds : Option (List String) := none
  exclude_feeds : Option (List String) := none
deriving Repr, DecidableEq

/-- Python truthiness of an optional list (`if rule.categories:`):
`None` and `[]` are falsy, non-empty lists truthy. -/
def truthy : Option (List String) → Bool
  | none => false
  | some l => !l.isEmpty

/-- `self.feed_names.get(entry.get('feed_id'), '')`: the feed directory is an
association list `feed_id → title`; a missing or absent id yields `""`. -/
def lookupFeedName (dir : List (Int × String)) : Option Int → String
  | none => ""
  | some i => (((dir.find? (fun p => p.1 == i)).map Prod.snd).getD "")

/-- `timedelta(days = 1)` in seconds. -/
def secondsPerDay : Int := 86400

/-- The include-feed condition: some configured pattern occurs
case-insensitively in the entry's feed name (`any(feed.lower() in feed_name
for feed in rule.feeds)` with `feed_name` already lowered). -/
def feedsHit (dir : List (Int × String)) (entry : Entry) (rule : ArchiveRule) : Bool :=
  (rule.feeds.getD []).any (fun f => strIn (pyLower f) (pyLower (lookupFeedName dir entry.feed_id)))

/-- The exclude-feed condition (`any(feed.lower() in feed_name for feed in
rule.exclude_feeds)`). -/
def excludeHit (dir : List (Int × String)) (entry : Entry) (rule : ArchiveRule) : Bool :=
  (rule.exclude_feeds.getD []).any (fun f => strIn (pyLower f) (pyLower (lookupFeedName dir entry.feed_id)))

/-- Final stage of `should_archive`: the `exclude_feeds` filter, then
`return True`. -/
def checkExclude (dir : List (Int × String)) (entry : Entry) (rule : ArchiveRule) : Except String Bool :=
  if truthy rule.exclude_feeds then
    if excludeHit dir entry rule then Except.ok false else Except.ok true
  else Except.ok true

/-- Feed-name include filter stage of `should_archive`. -/
def checkFeeds (dir : List (Int × String)) (entry : Entry) (rule : ArchiveRule) : Except String Bool :=
  if truthy rule.feeds then
    if !feedsHit dir entry rule then Except.ok false else checkExclude dir entry rule
  else checkExclude dir entry rule

/-- Category filter stage.  The source expression
`any(cat.lower() in (entry.get('feed', {}).get('category', '').lower() for cat in rule.categories))`
places the `for` inside the parenthesised right operand of `in`, so the outer
`cat` is an unbound name: whenever `rule.categories` is truthy the statement
raises `NameError` and the run aborts. -/
def checkCategories (dir : List (Int × String)) (entry : Entry) (rule : ArchiveRule) : Except String Bool :=
  if truthy rule.categories then
    Except.error "NameError: name cat is not defined"
  else checkFeeds dir entry rule

/-- Reading-time stage: `if reading_time >= rule.reading_time_min: return False`. -/
def checkReadingTime (dir : List (Int × String)) (entry : Entry) (rule : ArchiveRule) : Except String Bool :=
  match rule.reading_time_min with
  | some m =>
      if entry.reading_time.getD 0 ≥ m then Except.ok false
      else checkCategories dir entry rule
  | none => checkCategories dir entry rule

/-- `Archiver.should_archive(entry, rule)`.  The age stage parses
`entry['published_at']` (raising on an unparseable value), computes
`age_limit = now - timedelta(days=rule.age_days)` and returns `False` when
`entry_date > age_limit`; the remaining stages follow in source order. -/
def should_archive (now : Int) (dir : List (Int × String)) (entry : Entry) (rule : ArchiveRule) : Except String Bool :=
  match rule.age_days with
  | some n =>
      match entry.published_at with
      | none => Except.error "unparseable timestamp"
      | some d =>
          if d > now - n * secondsPerDay then Except.ok false
          else checkReadingTime dir entry rule
  | none => checkReadingTime dir entry rule

/-- The structured content of the reason string the run loop logs for an
archived entry: `rule.age_days` is checked first, `elif reading_time_min`,
else the literal `"unknown reason"`. -/
inductive Reason where
  | age (entry_date : Int) (threshold : Int)
  | readingTime (rt : Int) (threshold : Int)
  | unknown
deriving Repr, DecidableEq

/-- The reason the run loop derives from the rule that matched the entry. -/
def reasonFor (entry : Entry) (rule : ArchiveRule) : Reason :=
  match rule.age_days with
  | some n => Reason.age (entry.published_at.getD 0) n
  | none =>
      match rule.reading_time_min with
      | some m => Reason.readingTime (entry.reading_time.getD 0) m
      | none => Reason.unknown

/-- The inner rule loop of `Archiver.run`: rules are tried in declaration
order; `continue` on a non-match, `break` on the first match; an exception in
`should_archive` propagates. -/
def firstMatch (now : Int) (dir : List (Int × String)) : List ArchiveRule → Entry → Except String (Option ArchiveRule)
  | [], _ => Except.ok none
  | r :: rs, entry =>
      match should_archive now dir entry r with
      | Except.error e => Except.error e
      | Except.ok true => Except.ok (some r)
      | Except.ok false => firstMatch now dir rs entry

/-- The verdict `Archiver.run` reaches for one entry: the id it appends to
`to_archive` together with the logged reason, or `none` when no rule matched. -/
def entry_decision (now : Int) (dir : List (Int × String)) (rules : List ArchiveRule) (entry : Entry) :
    Except String (Option (Int × Reason)) :=
  (firstMatch now dir rules entry).map (Option.map (fun r => (entry.id, reasonFor entry r)))

/-- One page of the run loop: the `to_archive` ids collected in entry order;
an exception while evaluating any entry propagates. -/
def processPage (now : Int) (dir : List (Int × String)) (rules : List ArchiveRule) : List Entry → Except String (List Int)
  | [] => Except.ok []
  | e :: es =>
      match firstMatch now dir rules e with
      | Except.error err => Except.error err
      | Except.ok none => processPage now dir rules es
      | Except.ok (some _) => (processPage now dir rules es).map (fun ids => e.id :: ids)

/-- A Miniflux API call issued by the tool. -/
inductive Call where
  | get_feeds
  | get_entries (limit : Nat) (offset : Nat)
  | update_entries (ids : List Int)
deriving Repr, DecidableEq

/-- Whether a call mutates the server (only the bulk status update does). -/
def Call.isMutation : Call → Bool
  | update_entries _ => true
  | _ => false

/-- An immutable view of the service for one run: the unread total the probe
reports, and the entries returned for each page (indexed by `offset / 100`);
pages beyond the list are empty. -/
structure Snapshot where
  total : Nat
  pages : List (List Entry)
deriving Repr, DecidableEq

/-- `get_entries(status="unread", limit=100, offset=offset)['entries']`. -/
def fetchPage (snap : Snapshot) (offset : Nat) : List Entry :=
  snap.pages.getD (offset / 100) []

/-- `range(0, total, 100)`: the offsets the page loop visits. -/
def offsets (total : Nat) : List Nat :=
  (List.range ((total + 99) / 100)).map (fun i => i * 100)

/-- The page loop of `Archiver.run` over the remaining offsets.  Returns the
API calls issued and either the accumulated `total_archived` or the
propagated exception.  An empty page breaks out of the loop; under `dry`
(dry-run) the collected count is accumulated but no `update_entries` call is
made; a page with no candidates issues no call. -/
def runFrom (now : Int) (dir : List (Int × String)) (rules : List ArchiveRule) (dry : Bool) (snap : Snapshot) :
    List Nat → List Call × Except String Nat
  | [] => ([], Except.ok 0)
  | off :: rest =>
      if (fetchPage snap off).isEmpty then ([Call.get_entries 100 off], Except.ok 0)
      else
        match processPage now dir rules (fetchPage snap off) with
        | Except.error e => ([Call.get_entries 100 off], Except.error e)
        | Except.ok ids =>
            (Call.get_entries 100 off ::
              ((if ids.isEmpty then [] else if dry then [] else [Call.update_entries ids]) ++
                (runFrom now dir rules dry snap rest).1),
             (runFrom now dir rules dry snap rest).2.map (fun t => ids.length + t))

/-- `Archiver.run`: the initial `limit=1` probe captures the total, then the
page loop walks `range(0, total, 100)`. -/
def run (now : Int) (dir : List (Int × String)) (rules : List ArchiveRule) (dry : Bool) (snap : Snapshot) :
    List Call × Except String Nat :=
  let r := runFrom now dir rules dry snap (offsets snap.total)
  (Call.get_entries 1 0 :: r.1, r.2)

/-- `ArchiveRule.__post_init__`: a rule with neither `age_days` nor
`reading_time_min` raises `ValueError` at construction. -/
def validateRule (r : ArchiveRule) : Except String ArchiveRule :=
  if r.age_days.isNone && r.reading_time_min.isNone then
    Except.error "Each rule must have either age_days or reading_time_min"
  else Except.ok r

/-- `load_config`'s rule construction: `[ArchiveRule(**rule) for rule in ...]`,
failing on the first invalid rule. -/
def loadRules : List ArchiveRule → Except String (List ArchiveRule)
  | [] => Except.ok []
  | r :: rs =>
      match validateRule r with
      | Except.error e => Except.error e
      | Except.ok r' => (loadRules rs).map (fun l => r' :: l)

/-- `main` after argument parsing: rules are constructed from the raw config
before the client is built (so before any network call); only then does
`Archiver.__init__` call `get_feeds` to build the feed directory and `run`
issue its entry calls. -/
def mainRun (raw : List ArchiveRule) (now : Int) (feeds : List (Int × String)) (dry : Bool) (snap : Snapshot) :
    List Call × Except String Nat :=
  match loadRules raw with
  | Except.error e => ([], Except.error e)
  | Except.ok rules =>
      let r := run now feeds rules dry snap
      (Call.get_feeds :: r.1, r.2)

/-- Specification-side restatement of the per-page candidate sets (from the
spec: per page "collect IDs of entries that should archive", stopping at an
empty page), used to compare the mutation trace against. -/
def pageCandidates (now : Int) (dir : List (Int × String)) (rules : List ArchiveRule) (snap : Snapshot) :
    List Nat → List (List Int)
  | [] => []
  | off :: rest =>
      if (fetchPage snap off).isEmpty then []
      else
        match processPage now dir rules (fetchPage snap off) with
        | Except.error _ => []
        | Except.ok ids => ids :: pageCandidates now dir rules snap rest

/-! Concrete fixtures used by counterexamples and witnesses. -/

/-- A 45-day-old entry from feed 1 ("Blog"), reading time 10 minutes,
taking the epoch of the model as its publication instant. -/
def eBlog : Entry :=
  { id := 1, title := "post", published_at := some 0, reading_time := some 10,
    feed_id := some 1, feed_category := none, feed_title := "Blog" }

/-- An entry with no reading-time field. -/
def eNoTime : Entry := { eBlog with id := 2, reading_time := none }

/-- An entry whose published timestamp is unparseable. -/
def eBad : Entry := { eBlog with id := 3, published_at := none }

/-- A short entry (3 minutes) whose feed category is "Tech Weekly". -/
def eShort : Entry :=
  { eBlog with id := 4, reading_time := some 3, feed_category := some "Tech Weekly" }

/-- Rule: archive entries older than 30 days. -/
def rAge30 : ArchiveRule := { age_days := some 30 }

/-- Rule: archive entries with reading time under 5 minutes. -/
def rRead5 : ArchiveRule := { reading_time_min := some 5 }

/-- Rule with neither `age_days` nor `reading_time_min` (rejected by
`__post_init__`). -/
def rInvalid : ArchiveRule := {}

/-- Rule: reading time under 5 minutes, excluding "newsletter" feeds. -/
def rExcl : ArchiveRule := { reading_time_min := some 5, exclude_feeds := some ["newsletter"] }

/-- Rule: reading time under 5 minutes, restricted to the "tech" category. -/
def rCat : ArchiveRule := { reading_time_min := some 5, categories := some ["tech"] }

/-- Feed directory mapping feed 1 to "Weekly Newsletter". -/
def dirNews : List (Int × String) := [(1, "Weekly Newsletter")]

/-! ## Helper lemmas about the decision stages -/

/-- `should_archive` only reads the rule fields through their values:
rules agreeing on `age_days`, `reading_time_min`, the truthiness of
`categories`, and the `feeds` / `exclude_feeds` lists are evaluated
identically. -/
theorem should_archive_congr (now : Int) (dir : List (Int × String)) (entry : Entry)
    (r₁ r₂ : ArchiveRule)
    (ha : r₁.age_days = r₂.age_days)
    (hr : r₁.reading_time_min = r₂.reading_time_min)
    (hc : truthy r₁.categories = truthy r₂.categories)
    (hf : truthy r₁.feeds = truthy r₂.feeds)
    (hf' : r₁.feeds.getD [] = r₂.feeds.getD [])
    (he : truthy r₁.exclude_feeds = truthy r₂.exclude_feeds)
    (he' : r₁.exclude_feeds.getD [] = r₂.exclude_feeds.getD []) :
    should_archive now dir entry r₁ = should_archive now dir entry r₂ := by
  unfold should_archive checkReadingTime checkCategories checkFeeds checkExclude feedsHit excludeHit
  rw [ha, hr, hc, hf, hf', he, he']

/-- With the category, feed and exclude filters all falsy, the tail of the
check chain returns `True`. -/
theorem checks_pass (dir : List (Int × String)) (entry : Entry) (rule : ArchiveRule)
    (hc : truthy rule.categories = false)
    (hf : truthy rule.feeds = false)
    (he : truthy rule.exclude_feeds = false) :
    checkCategories dir entry rule = Except.ok true := by
  unfold checkCategories checkFeeds checkExclude
  rw [hc, hf, he]
  simp

/-- Under a matched exclude filter the final stage returns `False`. -/
theorem checkExclude_hit (dir : List (Int × String)) (entry : Entry) (rule : ArchiveRule)
    (hne : truthy rule.exclude_feeds = true)
    (hhit : excludeHit dir entry rule = true) :
    checkExclude dir entry rule = Except.ok false := by
  unfold checkExclude
  rw [hne, hhit]
  simp

/-- Under a matched exclude filter the feed-include stage returns `False`
on every branch. -/
theorem checkFeeds_excl_hit (dir : List (Int × String)) (entry : Entry) (rule : ArchiveRule)
    (hne : truthy rule.exclude_feeds = true)
    (hhit : excludeHit dir entry rule = true) :
    checkFeeds dir entry rule = Except.ok false := by
  unfold checkFeeds
  rw [checkExclude_hit dir entry rule hne hhit]
  split <;> [skip; rfl]
  split <;> rfl

/-! ## Claim C1: the age boundary -/

/-- Claim C1 counterexample: with the rule `age_days=30`, an entry published
exactly 30 days before `now` IS archived by the code (`entry_date >
age_limit` fails at equality), while the claim demands "false at exact
equality": `now - published_at > 30 days` does not hold here. -/
theorem age_boundary_archives_cex :
    should_archive (30 * secondsPerDay) [] eBlog rAge30 = Except.ok true ∧
    ¬((30 * secondsPerDay : Int) - 0 > 30 * secondsPerDay) :=
  ⟨rfl, by decide⟩

/-- Claim C1 (amended): for a rule whose only configured condition is
`age_days = N`, `should_archive` returns `True` iff `now - published_at`
is AT LEAST `N` days (the boundary case of an entry exactly `N` days old is
archived). -/
theorem age_only_rule_matches_iff (now d n : Int) (dir : List (Int × String))
    (entry : Entry) (rule : ArchiveRule)
    (hp : entry.published_at = some d)
    (ha : rule.age_days = some n)
    (hr : rule.reading_time_min = none)
    (hc : truthy rule.categories = false)
    (hf : truthy rule.feeds = false)
    (he : truthy rule.exclude_feeds = false) :
    should_archive now dir entry rule = Except.ok (decide (n * secondsPerDay ≤ now - d)) := by
  have hcat := checks_pass dir entry rule hc hf he
  have hrt : checkReadingTime dir entry rule = Except.ok true := by
    unfold checkReadingTime
    rw [hr]
    exact hcat
  unfold should_archive
  rw [ha, hp]
  show (if d > now - n * secondsPerDay then Except.ok false
    else checkReadingTime dir entry rule) = Except.ok (decide (n * secondsPerDay ≤ now - d))
  by_cases h : d > now - n * secondsPerDay
  · rw [if_pos h]
    have hd : decide (n * secondsPerDay ≤ now - d) = false := by
      rw [decide_eq_false_iff_not]
      omega
    rw [hd]
  · rw [if_neg h, hrt]
    have hd : decide (n * secondsPerDay ≤ now - d) = true := by
      rw [decide_eq_true_eq]
      omega
    rw [hd]

/-- Claim C1 witness: a 45-day-old entry is archived by the `age_days=30`
rule. -/
theorem age_only_rule_matches_iff_witness :
    eBlog.published_at = some 0 ∧
    should_archive (45 * secondsPerDay) [] eBlog rAge30 = Except.ok true := by
  refine ⟨rfl, ?_⟩
  have h := age_only_rule_matches_iff (45 * secondsPerDay) 0 30 [] eBlog rAge30
    rfl rfl rfl rfl rfl rfl
  rw [h]
  decide

/-! ## Claim C5: unparseable timestamps -/

/-- Claim C5 counterexample: on an entry with an unparseable
`published_at`, a rule with `age_days` set does NOT degrade to
"non-matching" — `should_archive` raises, and the exception propagates out
of `Archiver.run`, aborting the whole run. -/
theorem unparseable_timestamp_cex :
    should_archive 0 [] eBad rAge30 = Except.error "unparseable timestamp" ∧
    should_archive 0 [] eBad rAge30 ≠ Except.ok false ∧
    (run 0 [] [rAge30] false ⟨1, [[eBad]]⟩).2 = Except.error "unparseable timestamp" :=
  ⟨rfl, by decide, rfl⟩

/-- Claim C5 (amended): for an entry whose published timestamp is
unparseable and a rule with `age_days` set, `should_archive` raises the
parse error, and the error propagates out of the page loop (aborting the
run) instead of being handled locally. -/
theorem unparseable_timestamp_propagates (now : Int) (dir : List (Int × String))
    (entry : Entry) (rule : ArchiveRule) (n : Int) (rest : List Entry)
    (ha : rule.age_days = some n)
    (hp : entry.published_at = none) :
    should_archive now dir entry rule = Except.error "unparseable timestamp" ∧
    processPage now dir [rule] (entry :: rest) = Except.error "unparseable timestamp" := by
  have h1 : should_archive now dir entry rule = Except.error "unparseable timestamp" := by
    unfold should_archive
    rw [ha, hp]
  refine ⟨h1, ?_⟩
  unfold processPage firstMatch
  rw [h1]

/-- Claim C5 witness: the propagation theorem at the concrete bad entry. -/
theorem unparseable_timestamp_propagates_witness :
    rAge30.age_days = some 30 ∧ eBad.published_at = none ∧
    processPage 0 [] [rAge30] [eBad] = Except.error "unparseable timestamp" :=
  ⟨rfl, rfl, (unparseable_timestamp_propagates 0 [] eBad rAge30 30 [] rfl rfl).2⟩

/-! ## Claim C6: the category filter -/

/-- Claim C6: the category condition never "passes" — the source expression
leaves `cat` unbound outside its generator, so a truthy `categories` list
always raises `NameError` (here: on an entry whose feed category "Tech
Weekly" would satisfy the claimed substring check for `"tech"`). -/
theorem category_filter_raises_nameerror :
    should_archive 0 [] eShort rCat = Except.error "NameError: name cat is not defined" ∧
    should_archive 0 [] eShort rCat ≠ Except.ok true :=
  ⟨rfl, by decide⟩

/-! ## Claim C8: reading-time-only rules -/

/-- Claim C8: for a rule whose only configured condition is
`reading_time_min = M`, `should_archive` returns `True` iff the entry's
reading time (defaulting to `0` when absent) is strictly below `M`; in
particular an entry with no reading-time field always satisfies the
condition for a positive threshold. -/
theorem reading_time_only_rule_matches_iff (now m : Int) (dir : List (Int × String))
    (entry : Entry) (rule : ArchiveRule)
    (ha : rule.age_days = none)
    (hr : rule.reading_time_min = some m)
    (hc : truthy rule.categories = false)
    (hf : truthy rule.feeds = false)
    (he : truthy rule.exclude_feeds = false) :
    should_archive now dir entry rule = Except.ok (decide (entry.reading_time.getD 0 < m)) ∧
    (entry.reading_time = none → 1 ≤ m →
      should_archive now dir entry rule = Except.ok true) := by
  have hcat := checks_pass dir entry rule hc hf he
  have h1 : should_archive now dir entry rule =
      Except.ok (decide (entry.reading_time.getD 0 < m)) := by
    unfold should_archive
    rw [ha]
    unfold checkReadingTime
    rw [hr]
    show (if entry.reading_time.getD 0 ≥ m then Except.ok false
      else checkCategories dir entry rule) = Except.ok (decide (entry.reading_time.getD 0 < m))
    by_cases h : entry.reading_time.getD 0 ≥ m
    · rw [if_pos h]
      have hd : decide (entry.reading_time.getD 0 < m) = false := by
        rw [decide_eq_false_iff_not]
        omega
      rw [hd]
    · rw [if_neg h, hcat]
      have hd : decide (entry.reading_time.getD 0 < m) = true := by
        rw [decide_eq_true_eq]
        omega
      rw [hd]
  refine ⟨h1, fun hnone hm => ?_⟩
  rw [h1, hnone]
  have hd : decide ((none : Option Int).getD 0 < m) = true := by
    rw [decide_eq_true_eq]
    simp only [Option.getD_none]
    omega
  rw [hd]

/-- Claim C8 witness: an entry with no reading-time field is archived by a
`reading_time_min=5` rule. -/
theorem reading_time_only_rule_matches_iff_witness :
    eNoTime.reading_time = none ∧
    should_archive 0 [] eNoTime rRead5 = Except.ok true :=
  ⟨rfl, (reading_time_only_rule_matches_iff 0 5 [] eNoTime rRead5
    rfl rfl rfl rfl rfl).2 rfl (by decide)⟩

/-! ## Claim C10: empty-list fields -/

/-- Claim C10: an empty `categories`, `feeds` or `exclude_feeds` list is
falsy exactly like an absent one, so the corresponding filter is skipped
and the rule evaluates identically. -/
theorem empty_list_fields_behave_as_absent (now : Int) (dir : List (Int × String))
    (entry : Entry) (rule : ArchiveRule) :
    should_archive now dir entry { rule with categories := some [] } =
      should_archive now dir entry { rule with categories := none } ∧
    should_archive now dir entry { rule with feeds := some [] } =
      should_archive now dir entry { rule with feeds := none } ∧
    should_archive now dir entry { rule with exclude_feeds := some [] } =
      should_archive now dir entry { rule with exclude_feeds := none } :=
  ⟨should_archive_congr now dir entry _ _ rfl rfl rfl rfl rfl rfl rfl,
   should_archive_congr now dir entry _ _ rfl rfl rfl rfl rfl rfl rfl,
   should_archive_congr now dir entry _ _ rfl rfl rfl rfl rfl rfl rfl⟩

/-! ## Claim C7: exclude filter precedence -/

/-- Claim C7: when some `exclude_feeds` pattern occurs case-insensitively in
the entry's feed name, the rule never archives the entry (the statement is
`≠ Except.ok true`, since a truthy `categories` field raises instead of
returning); when the remaining configured conditions can be evaluated the
result is precisely `False`, whatever the other conditions decided. -/
theorem exclude_overrides_matching_rule (now : Int) (dir : List (Int × String))
    (entry : Entry) (rule : ArchiveRule)
    (hne : truthy rule.exclude_feeds = true)
    (hhit : excludeHit dir entry rule = true) :
    should_archive now dir entry rule ≠ Except.ok true ∧
    (truthy rule.categories = false →
      (rule.age_days = none ∨ entry.published_at ≠ none) →
      should_archive now dir entry rule = Except.ok false) := by
  have hcf := checkFeeds_excl_hit dir entry rule hne hhit
  have hcc : ∀ b, checkCategories dir entry rule = Except.ok b → b = false := by
    intro b hb
    unfold checkCategories at hb
    split at hb
    · exact Except.noConfusion hb
    · rw [hcf] at hb
      exact (Except.ok.inj hb).symm
  have hrt : ∀ b, checkReadingTime dir entry rule = Except.ok b → b = false := by
    intro b hb
    unfold checkReadingTime at hb
    split at hb
    · split at hb
      · exact (Except.ok.inj hb).symm
      · exact hcc b hb
    · exact hcc b hb
  constructor
  · intro hcontra
    unfold should_archive at hcontra
    split at hcontra
    · split at hcontra
      · exact Except.noConfusion hcontra
      · split at hcontra
        · exact absurd (Except.ok.inj hcontra) (by simp)
        · exact absurd (hrt true hcontra) (by simp)
    · exact absurd (hrt true hcontra) (by simp)
  · intro hcat hpub
    have hccok : checkCategories dir entry rule = Except.ok false := by
      unfold checkCategories
      rw [hcat]
      exact hcf
    have hrtok : checkReadingTime dir entry rule = Except.ok false := by
      unfold checkReadingTime
      split
      · rw [hccok]
        exact ite_self _
      · exact hccok
    unfold should_archive
    split
    · split
      · -- the unparseable-timestamp arm: ruled out by `hpub`
        rcases hpub with h | h <;> simp_all
      · rw [hrtok]
        exact ite_self _
    · exact hrtok

/-- Claim C7 witness: the spec scenario — rule `{reading_time_min: 5,
exclude_feeds: ["newsletter"]}` against a 3-minute entry from "Weekly
Newsletter" is kept. -/
theorem exclude_overrides_matching_rule_witness :
    truthy rExcl.exclude_feeds = true ∧
    excludeHit dirNews { eBlog with reading_time := some 3 } rExcl = true ∧
    should_archive 0 dirNews { eBlog with reading_time := some 3 } rExcl = Except.ok false :=
  ⟨rfl, by decide,
   (exclude_overrides_matching_rule 0 dirNews { eBlog with reading_time := some 3 } rExcl
      rfl (by decide)).2 rfl (Or.inl rfl)⟩

/-! ## Claim C2: first-match semantics of the rule loop -/

/-- The rule loop reports "no match" exactly when every rule evaluates to
`False`. -/
theorem firstMatch_none_iff (now : Int) (dir : List (Int × String)) (entry : Entry) :
    ∀ rules : List ArchiveRule, firstMatch now dir rules entry = Except.ok none ↔
      ∀ r ∈ rules, should_archive now dir entry r = Except.ok false
  | [] => by simp [firstMatch]
  | q :: rs => by
      simp only [firstMatch]
      cases hq : should_archive now dir entry q with
      | error e => simp [hq, List.forall_mem_cons]
      | ok b =>
          cases b with
          | true => simp [hq, List.forall_mem_cons]
          | false => simp [hq, List.forall_mem_cons, firstMatch_none_iff now dir entry rs]

/-- The rule loop stops at `r` exactly when `r` occurs in the list after a
(possibly empty) prefix of rules that all evaluate to `False`, and `r`
itself evaluates to `True`. -/
theorem firstMatch_some_iff (now : Int) (dir : List (Int × String)) (entry : Entry)
    (r : ArchiveRule) :
    ∀ rules : List ArchiveRule, firstMatch now dir rules entry = Except.ok (some r) ↔
      ∃ pre post, rules = pre ++ r :: post ∧
        (∀ p ∈ pre, should_archive now dir entry p = Except.ok false) ∧
        should_archive now dir entry r = Except.ok true
  | [] => by
      simp only [firstMatch]
      constructor
      · intro h
        exact absurd (Except.ok.inj h) (by simp)
      · rintro ⟨pre, post, h, -, -⟩
        exact absurd h (by cases pre <;> simp)
  | q :: rs => by
      simp only [firstMatch]
      cases hq : should_archive now dir entry q with
      | error e =>
          constructor
          · intro h
            simp [hq] at h
          · rintro ⟨pre, post, hdec, hpre, hr⟩
            cases pre with
            | nil =>
                injection hdec with h1 h2
                subst h1
                simp [hq] at hr
            | cons p pre' =>
                injection hdec with h1 h2
                subst h1
                have := hpre q (by simp)
                simp [hq] at this
      | ok b =>
          cases b with
          | true =>
              simp only [hq]
              constructor
              · intro h
                have hqr : q = r := by
                  have := Except.ok.inj h
                  exact Option.some.inj this
                subst hqr
                exact ⟨[], rs, rfl, by simp, hq⟩
              · rintro ⟨pre, post, hdec, hpre, hr⟩
                cases pre with
                | nil =>
                    injection hdec with h1 h2
                    subst h1
                    rfl
                | cons p pre' =>
                    injection hdec with h1 h2
                    subst h1
                    have := hpre q (by simp)
                    simp [hq] at this
          | false =>
              simp only [hq]
              rw [firstMatch_some_iff now dir entry r rs]
              constructor
              · rintro ⟨pre, post, hdec, hpre, hr⟩
                refine ⟨q :: pre, post, by rw [hdec] ; rfl, ?_, hr⟩
                intro p hp
                rcases List.mem_cons.mp hp with h | h
                · subst h
                  exact hq
                · exact hpre p h
              · rintro ⟨pre, post, hdec, hpre, hr⟩
                cases pre with
                | nil =>
                    injection hdec with h1 h2
                    subst h1
                    simp [hq] at hr
                | cons p pre' =>
                    injection hdec with h1 h2
                    subst h1
                    exact ⟨pre', post, h2, fun p hp => hpre p (by simp [hp]), hr⟩

/-- Provided every rule evaluates without raising, some rule matches the
entry exactly when the loop stops at some rule. -/
theorem firstMatch_exists_match (now : Int) (dir : List (Int × String)) (entry : Entry) :
    ∀ rules : List ArchiveRule,
      (∀ r₀ ∈ rules, ∃ b, should_archive now dir entry r₀ = Except.ok b) →
      ((∃ r ∈ rules, should_archive now dir entry r = Except.ok true) ↔
        ∃ r, firstMatch now dir rules entry = Except.ok (some r))
  | [] => by simp [firstMatch]
  | q :: rs => by
      intro hok
      obtain ⟨b, hb⟩ := hok q (by simp)
      cases b with
      | true =>
          constructor
          · intro _
            exact ⟨q, by simp [firstMatch, hb]⟩
          · intro _
            exact ⟨q, by simp, hb⟩
      | false =>
          have ih := firstMatch_exists_match now dir entry rs (fun r hr => hok r (by simp [hr]))
          simp only [firstMatch, hb]
          rw [← ih]
          constructor
          · rintro ⟨r, hr, hra⟩
            rcases List.mem_cons.mp hr with h | h
            · subst h
              rw [hb] at hra
              exact absurd (Except.ok.inj hra) (by simp)
            · exact ⟨r, h, hra⟩
          · rintro ⟨r, hr, hra⟩
            exact ⟨r, by simp [hr], hra⟩

/-- Claim C2: provided every rule evaluates without raising — an entry is
archived iff some rule matches; the loop short-circuits at the first
matching rule in declaration order and that rule supplies the logged
reason; with no matching rule nothing is archived and no reason is
produced; and permuting the rule list never changes the archive/keep
outcome, only which rule is reported. -/
theorem entry_rule_loop_first_match (now : Int) (dir : List (Int × String)) (entry : Entry)
    (rules : List ArchiveRule)
    (hok : ∀ r ∈ rules, ∃ b, should_archive now dir entry r = Except.ok b) :
    ((∃ r ∈ rules, should_archive now dir entry r = Except.ok true) ↔
      ∃ r, firstMatch now dir rules entry = Except.ok (some r)) ∧
    (∀ r, firstMatch now dir rules entry = Except.ok (some r) →
      entry_decision now dir rules entry = Except.ok (some (entry.id, reasonFor entry r)) ∧
      ∃ pre post, rules = pre ++ r :: post ∧
        (∀ p ∈ pre, should_archive now dir entry p = Except.ok false) ∧
        should_archive now dir entry r = Except.ok true) ∧
    (entry_decision now dir rules entry = Except.ok none ↔
      ∀ r ∈ rules, should_archive now dir entry r = Except.ok false) ∧
    (∀ rules', rules.Perm rules' →
      ((∃ r, firstMatch now dir rules entry = Except.ok (some r)) ↔
        ∃ r, firstMatch now dir rules' entry = Except.ok (some r))) := by
  refine ⟨firstMatch_exists_match now dir entry rules hok, ?_, ?_, ?_⟩
  · intro r hfm
    refine ⟨?_, (firstMatch_some_iff now dir entry r rules).mp hfm⟩
    unfold entry_decision
    rw [hfm]
    rfl
  · have hmap : entry_decision now dir rules entry = Except.ok none ↔
        firstMatch now dir rules entry = Except.ok none := by
      unfold entry_decision
      cases h : firstMatch now dir rules entry with
      | error e => simp [Except.map]
      | ok o => simp [Except.map, Option.map_eq_none']
    rw [hmap]
    exact firstMatch_none_iff now dir entry rules
  · intro rules' hperm
    have hok' : ∀ r ∈ rules', ∃ b, should_archive now dir entry r = Except.ok b :=
      fun r hr => hok r (hperm.mem_iff.mpr hr)
    rw [← firstMatch_exists_match now dir entry rules hok,
      ← firstMatch_exists_match now dir entry rules' hok']
    constructor
    · rintro ⟨r, hr, hra⟩
      exact ⟨r, hperm.mem_iff.mp hr, hra⟩
    · rintro ⟨r, hr, hra⟩
      exact ⟨r, hperm.mem_iff.mpr hr, hra⟩

/-- Claim C2 witness: with rules `[reading_time_min=5, age_days=30]` and a
45-day-old, 10-minute entry, both rules evaluate cleanly and the
archive-iff-some-rule-matches equivalence holds. -/
theorem entry_rule_loop_first_match_witness :
    (∀ r ∈ [rRead5, rAge30], ∃ b,
      should_archive (45 * secondsPerDay) [] eBlog r = Except.ok b) ∧
    ((∃ r ∈ [rRead5, rAge30],
        should_archive (45 * secondsPerDay) [] eBlog r = Except.ok true) ↔
      ∃ r, firstMatch (45 * secondsPerDay) [] [rRead5, rAge30] eBlog =
        Except.ok (some r)) := by
  have hok : ∀ r ∈ [rRead5, rAge30], ∃ b,
      should_archive (45 * secondsPerDay) [] eBlog r = Except.ok b := by
    intro r hr
    rcases List.mem_cons.mp hr with h | h
    · subst h
      exact ⟨false, by decide⟩
    · rcases List.mem_cons.mp h with h2 | h2
      · subst h2
        exact ⟨true, by decide⟩
      · simp at h2
  exact ⟨hok,
    (entry_rule_loop_first_match (45 * secondsPerDay) [] eBlog [rRead5, rAge30] hok).1⟩

/-! ## Claim C3: dry-run equivalence and the mutation trace -/

/-- Page-loop invariant: the dry run issues no mutation call and computes
the same outcome as the real run, whose mutation trace is exactly one
`update_entries` per page with a non-empty candidate set, carrying that
page's ids. -/
theorem runFrom_dry_spec (now : Int) (dir : List (Int × String)) (rules : List ArchiveRule)
    (snap : Snapshot) :
    ∀ offs : List Nat,
      ((runFrom now dir rules true snap offs).1.filter Call.isMutation = []) ∧
      ((runFrom now dir rules true snap offs).2 = (runFrom now dir rules false snap offs).2) ∧
      ((runFrom now dir rules false snap offs).1.filter Call.isMutation =
        ((pageCandidates now dir rules snap offs).filter (fun l => !l.isEmpty)).map
          Call.update_entries)
  | [] => by simp [runFrom, pageCandidates]
  | off :: rest => by
      have ih := runFrom_dry_spec now dir rules snap rest
      simp only [runFrom, pageCandidates]
      by_cases hE : (fetchPage snap off).isEmpty
      · simp [hE, Call.isMutation]
      · simp only [hE, if_false, Bool.false_eq_true]
        cases hP : processPage now dir rules (fetchPage snap off) with
        | error e => simp [Call.isMutation]
        | ok ids =>
            by_cases hI : ids.isEmpty
            · simp [hI, Call.isMutation, ih.1, ih.2.1, ih.2.2]
            · simp [hI, Call.isMutation, ih.1, ih.2.1, ih.2.2]
  termination_by offs => offs.length

/-- Claim C3: on the same snapshot, the dry run issues no `update_entries`
call yet reports the same total as the real run; the real run's mutation
trace is one bulk call per page with at least one candidate, for exactly
that page's collected ids (candidate-free pages issue none). -/
theorem dry_run_equivalence (now : Int) (dir : List (Int × String)) (rules : List ArchiveRule)
    (snap : Snapshot) :
    ((run now dir rules true snap).1.filter Call.isMutation = []) ∧
    ((run now dir rules true snap).2 = (run now dir rules false snap).2) ∧
    ((run now dir rules false snap).1.filter Call.isMutation =
      ((pageCandidates now dir rules snap (offsets snap.total)).filter (fun l => !l.isEmpty)).map
        Call.update_entries) := by
  have h := runFrom_dry_spec now dir rules snap (offsets snap.total)
  unfold run
  simp only [List.filter_cons]
  exact ⟨by simpa [Call.isMutation] using h.1, h.2.1, by simpa [Call.isMutation] using h.2.2⟩

/-! ## Claim C4: pagination bounds and early termination -/

/-- Claim C4: the run opens with the `limit=1` probe call; the page loop
visits exactly the offsets `0, 100, 200, ...` strictly below the probed
total; and an empty page terminates the loop early: with `total = 250` and
an empty page at offset 200, the reported total is the sum of the candidate
counts of the pages at offsets 0 and 100 only. -/
theorem pagination_termination :
    (∀ (now : Int) (dir : List (Int × String)) (rules : List ArchiveRule) (dry : Bool)
        (snap : Snapshot),
      (run now dir rules dry snap).1.head? = some (Call.get_entries 1 0)) ∧
    (∀ total o, o ∈ offsets total → o < total ∧ o % 100 = 0) ∧
    (∀ (now : Int) (dir : List (Int × String)) (rules : List ArchiveRule) (dry : Bool)
        (p0 p1 : List Entry) (c0 c1 : List Int),
      p0 ≠ [] → p1 ≠ [] →
      processPage now dir rules p0 = Except.ok c0 →
      processPage now dir rules p1 = Except.ok c1 →
      (run now dir rules dry ⟨250, [p0, p1]⟩).2 = Except.ok (c0.length + c1.length)) := by
  refine ⟨fun now dir rules dry snap => rfl, ?_, ?_⟩
  · intro total o ho
    unfold offsets at ho
    simp only [List.mem_map, List.mem_range] at ho
    obtain ⟨i, hi, rfl⟩ := ho
    refine ⟨?_, by simp⟩
    have h1 : i + 1 ≤ (total + 99) / 100 := hi
    have h2 : (i + 1) * 100 ≤ total + 99 :=
      (Nat.le_div_iff_mul_le (by norm_num)).mp h1
    omega
  · intro now dir rules dry p0 p1 c0 c1 h0 h1 hP0 hP1
    have hoff : offsets 250 = [0, 100, 200] := rfl
    have hE0 : (fetchPage ⟨250, [p0, p1]⟩ 0).isEmpty = false := by
      show p0.isEmpty = false
      cases p0 with
      | nil => exact absurd rfl h0
      | cons a l => rfl
    have hE1 : (fetchPage ⟨250, [p0, p1]⟩ 100).isEmpty = false := by
      show p1.isEmpty = false
      cases p1 with
      | nil => exact absurd rfl h1
      | cons a l => rfl
    have hF0 : fetchPage ⟨250, [p0, p1]⟩ 0 = p0 := rfl
    have hF1 : fetchPage ⟨250, [p0, p1]⟩ 100 = p1 := rfl
    have hE2 : (fetchPage ⟨250, [p0, p1]⟩ 200).isEmpty = true := rfl
    unfold run
    rw [hoff]
    simp only [runFrom, hE0, hE1, hE2, hF0, hF1, hP0, hP1, if_true, if_false,
      Bool.false_eq_true, Except.map]
    simp [h0, h1]

/-- Claim C4 witness: with an empty rule list (every page contributing zero
candidates) and non-empty pages at offsets 0 and 100, the run over a
250-total snapshot reports 0. -/
theorem pagination_termination_witness :
    (100 < 250 ∧ 100 % 100 = 0) ∧
    (run 0 [] [] true ⟨250, [[eBlog], [eNoTime]]⟩).2 = Except.ok 0 :=
  ⟨pagination_termination.2.1 250 100 (by decide),
   pagination_termination.2.2 0 [] [] true [eBlog] [eNoTime] [] []
     (by simp) (by simp) rfl rfl⟩

/-! ## Claim C9: rule validation happens before any network call -/

/-- A raw rule list containing an invalid rule makes `load_config` fail. -/
theorem loadRules_error_of_invalid :
    ∀ raw : List ArchiveRule,
      (∃ r ∈ raw, r.age_days = none ∧ r.reading_time_min = none) →
      ∃ e, loadRules raw = Except.error e
  | [], h => by simp at h
  | q :: rs, h => by
      rcases h with ⟨r, hr, hage, hrt⟩
      rcases List.mem_cons.mp hr with hqr | hmem
      · subst hqr
        refine ⟨"Each rule must have either age_days or reading_time_min", ?_⟩
        simp only [loadRules, validateRule, hage, hrt]
        rfl
      · cases hv : validateRule q with
        | error e => exact ⟨e, by simp [loadRules, hv]⟩
        | ok q' =>
            obtain ⟨e, he⟩ := loadRules_error_of_invalid rs ⟨r, hmem, hage, hrt⟩
            exact ⟨e, by simp [loadRules, hv, he, Except.map]⟩

/-- Claim C9: a rule with neither `age_days` nor `reading_time_min` is
rejected by `__post_init__` with a `ValueError`; a rule with at least one
of the two constructs successfully; and a raw configuration containing an
invalid rule makes the program fail before a single API call is issued. -/
theorem invalid_rule_rejected_before_network :
    (∀ r : ArchiveRule, r.age_days = none → r.reading_time_min = none →
      validateRule r = Except.error "Each rule must have either age_days or reading_time_min") ∧
    (∀ r : ArchiveRule, r.age_days ≠ none ∨ r.reading_time_min ≠ none →
      validateRule r = Except.ok r) ∧
    (∀ (raw : List ArchiveRule) (now : Int) (feeds : List (Int × String)) (dry : Bool)
        (snap : Snapshot),
      (∃ r ∈ raw, r.age_days = none ∧ r.reading_time_min = none) →
      (mainRun raw now feeds dry snap).1 = [] ∧
        ∃ e, (mainRun raw now feeds dry snap).2 = Except.error e) := by
  refine ⟨?_, ?_, ?_⟩
  · intro r hage hrt
    unfold validateRule
    rw [hage, hrt]
    rfl
  · intro r h
    unfold validateRule
    rcases h with h | h
    · cases hv : r.age_days with
      | none => exact absurd hv h
      | some n => simp [hv]
    · cases hv : r.reading_time_min with
      | none => exact absurd hv h
      | some m => simp [hv]
  · intro raw now feeds dry snap hbad
    obtain ⟨e, he⟩ := loadRules_error_of_invalid raw hbad
    unfold mainRun
    rw [he]
    exact ⟨rfl, e, rfl⟩

/-- Claim C9 witness: the empty rule (neither field set) is rejected, a
rule with `age_days` alone is accepted, and a config holding the invalid
rule produces no API call. -/
theorem invalid_rule_rejected_before_network_witness :
    validateRule rInvalid =
      Except.error "Each rule must have either age_days or reading_time_min" ∧
    validateRule rAge30 = Except.ok rAge30 ∧
    ((mainRun [rInvalid] 0 [] false ⟨0, []⟩).1 = [] ∧
      ∃ e, (mainRun [rInvalid] 0 [] false ⟨0, []⟩).2 = Except.error e) :=
  ⟨invalid_rule_rejected_before_network.1 rInvalid rfl rfl,
   invalid_rule_rejected_before_network.2.1 rAge30 (Or.inl (by decide)),
   invalid_rule_rejected_before_network.2.2 [rInvalid] 0 [] false ⟨0, []⟩
     ⟨rInvalid, by simp, rfl, rfl⟩⟩

end MinifluxArchiver
